import Mathlib

/-!
Verification of the bootstrap orchestrator in `main.py` of the alac-rip
repository.  The script is embedded shallowly: the filesystem is an
association list from absolute path strings to entries, external
nondeterminism (privilege level, package-manager outcome, downloaded archive
contents, clone outcome, per-path chmod/symlink faults) is collected in a
`World` record, and each block of the script becomes a Lean function over
that state.  `sys.exit`, uncaught exceptions and normal return are
distinguished by the `Exec` result type.
-/

set_option maxRecDepth 4000

/-- Entry of the modelled filesystem: a regular file carrying its permission
mode and text content, a directory, or a symbolic link carrying its target
path.  Paths are treated atomically (the model does not re-derive parent
directories). -/
inductive Entry where
  | file (mode : Nat) (content : String)
  | dir
  | symlink (target : String)
deriving DecidableEq, Repr

/-- The modelled filesystem: an association list from absolute paths to
entries; the first occurrence of a path is its current entry. -/
abbrev FS := List (String × Entry)

/-- Entry stored directly at a path (Python `os.lstat` view: a symlink is
returned as itself, not followed). -/
def FS.find : FS → String → Option Entry
  | [], _ => none
  | (q, e) :: rest, p => if p = q then some e else FS.find rest p

/-- Remove every binding of a path. -/
def FS.erase : FS → String → FS
  | [], _ => []
  | (q, e) :: rest, p => if q = p then FS.erase rest p else (q, e) :: FS.erase rest p

/-- Bind a path to an entry, replacing any previous binding. -/
def FS.set (fs : FS) (p : String) (e : Entry) : FS := (p, e) :: FS.erase fs p

/-- Resolve a path, following up to `fuel` symlink indirections (models the
stat performed by Python's `Path.exists()`). -/
def FS.resolve (fs : FS) : Nat → String → Option Entry
  | 0, _ => none
  | fuel + 1, p =>
    match FS.find fs p with
    | some (Entry.symlink t) => FS.resolve fs fuel t
    | o => o

/-- Python `Path.exists()`: true when the path resolves, following symlinks;
false for a missing path and for a dangling symlink. -/
def FS.pathExists (fs : FS) (p : String) : Bool := (FS.resolve fs 64 p).isSome

/-- Boolean test that the first character list is an initial segment of the
second (used to model path-prefix tests and shell-style glob patterns, since
the builtin String primitives do not reduce in the kernel). -/
def strPre : List Char → List Char → Bool
  | [], _ => true
  | _ :: _, [] => false
  | a :: as, b :: bs => a == b && strPre as bs

/-- Direct children of a directory, as (name, entry) pairs, in filesystem
order (models `Path.glob("*")`; a missing directory yields no children). -/
def FS.children (fs : FS) (dir : String) : List (String × Entry) :=
  let pre := (dir ++ "/").data
  fs.filterMap fun pe =>
    if strPre pre pe.1.data then
      let n := pe.1.data.drop pre.length
      if n ≠ [] ∧ ¬ n.contains '/' then some (String.mk n, pe.2) else none
    else none

/-- Directory containing the script (`Path(__file__).resolve().parent`); its
concrete value is irrelevant, a fixed absolute path stands in for it. -/
def PROJECT_DIR : String := "/opt/alac-rip"

/-- Toolkit directory `PROJECT_DIR / "bento4"`. -/
def BENTO4_DIR : String := PROJECT_DIR ++ "/bento4"

/-- Wrapper directory `PROJECT_DIR / "wrapper"`. -/
def WRAPPER_DIR : String := PROJECT_DIR ++ "/wrapper"

/-- Cloned repository directory `PROJECT_DIR / "apple-music-downloader"`. -/
def AMD_DIR : String := PROJECT_DIR ++ "/apple-music-downloader"

/-- Temporary toolkit archive path `PROJECT_DIR / "bento4.zip"`. -/
def bento4Zip : String := PROJECT_DIR ++ "/bento4.zip"

/-- Temporary wrapper archive path `PROJECT_DIR / "wrapper.x86_64.zip"`. -/
def wrapperZip : String := PROJECT_DIR ++ "/wrapper.x86_64.zip"

/-- Bootstrap marker path `PROJECT_DIR / "firstrun"`. -/
def markerFile : String := PROJECT_DIR ++ "/firstrun"

/-- Text written into the bootstrap marker. -/
def markerText : String := "This file marks that first setup has been completed.\n"

/-- System-wide link directory used by `os.symlink` targets. -/
def USR_LOCAL_BIN : String := "/usr/local/bin"

/-- Permission repair applied to each file: `current_mode | 0o755`
(the script's `new_mode = current_mode | 0o755`). -/
def chmodRepair (mode : Nat) : Nat := mode ||| 0o755

/-- Executability test `os.access(f, os.X_OK)`: some execute bit is set. -/
def isExec (mode : Nat) : Bool := mode &&& 0o111 != 0

/-- Per-file outcome of one symlink attempt (`created` / `already exists` /
exception caught). -/
inductive Outcome where
  | created
  | alreadyPresent
  | failed
deriving DecidableEq, Repr

/-- One `os.symlink(src, dst)` call: raises (`none`) when any entry — even a
dangling symlink — already occupies `dst`, or when the environment injects a
fault (`fails dst`, e.g. permission denied); otherwise creates the link. -/
def trySymlink (fails : String → Bool) (fs : FS) (src dst : String) : Option FS :=
  match FS.find fs dst with
  | some _ => none
  | none => if fails dst then none else some (FS.set fs dst (Entry.symlink src))

/-- Body of the first-pass symlink loop for one executable: check
`link_path.exists()` (follows symlinks), else attempt `os.symlink`; an
exception is caught for this file only. -/
def linkStep (fails : String → Bool) (fs : FS) (binDir name : String) : FS × Outcome :=
  let dst := USR_LOCAL_BIN ++ "/" ++ name
  if FS.pathExists fs dst then (fs, Outcome.alreadyPresent)
  else
    match trySymlink fails fs (binDir ++ "/" ++ name) dst with
    | some fs' => (fs', Outcome.created)
    | none => (fs, Outcome.failed)

/-- First-pass loop over all executable files (lines 82-98): every file is
visited, each with its own try/except. -/
def linkLoop (fails : String → Bool) (fs : FS) (binDir : String) :
    List String → FS × List Outcome
  | [] => (fs, [])
  | n :: ns =>
    let s := linkStep fails fs binDir n
    let r := linkLoop fails s.1 binDir ns
    (r.1, s.2 :: r.2)

/-- Creation loop of the repair pass (lines 136-138): the surrounding
try/except is OUTSIDE this loop, so the first raising `os.symlink` aborts the
remaining creations. -/
def repairLoop (fails : String → Bool) : FS → List (String × String) → FS × Bool
  | fs, [] => (fs, true)
  | fs, sd :: rest =>
    match trySymlink fails fs sd.1 sd.2 with
    | some fs' => repairLoop fails fs' rest
    | none => (fs, false)

/-- Missing links computed by the repair pass (lines 127-132): regular,
execute-permitted files of `binDir` whose `/usr/local/bin` path fails
`link_path.exists()`. -/
def missingLinks (fs : FS) (binDir : String) : List (String × String) :=
  (FS.children fs binDir).filterMap fun ne =>
    match ne.2 with
    | Entry.file m _ =>
      if isExec m ∧ FS.pathExists fs (USR_LOCAL_BIN ++ "/" ++ ne.1) = false then
        some (binDir ++ "/" ++ ne.1, USR_LOCAL_BIN ++ "/" ++ ne.1)
      else none
    | _ => none

/-- Repair pass over an existing toolkit directory (lines 126-143): collect
the missing links, then create them inside a single try/except; the Bool
records whether the pass completed without an exception. -/
def repairPass (fails : String → Bool) (fs : FS) (binDir : String) : FS × Bool :=
  repairLoop fails fs (missingLinks fs binDir)

/-- Chmod loop of the first pass (lines 60-69): every regular file of the
listing gets `mode | 0o755`; a per-file failure (`chmodFails`) is caught and
leaves that file unchanged. -/
def chmodAll (chmodFails : String → Bool) (fs : FS) (binDir : String)
    (files : List (String × Entry)) : FS :=
  files.foldl
    (fun acc ne =>
      let p := binDir ++ "/" ++ ne.1
      match FS.find acc p with
      | some (Entry.file m c) =>
        if chmodFails p then acc else FS.set acc p (Entry.file (chmodRepair m) c)
      | _ => acc)
    fs

/-- Re-computation of the executable files after the chmod loop (line 72):
names of regular files of the listing whose current mode has an execute
bit. -/
def executablesOf (fs : FS) (binDir : String) (files : List (String × Entry)) :
    List String :=
  files.filterMap fun ne =>
    match FS.find fs (binDir ++ "/" ++ ne.1) with
    | some (Entry.file m _) => if isExec m then some ne.1 else none
    | _ => none

/-- Split a character sequence at newline characters; a text with no newline
is a single line, and the result is never empty. -/
def splitLines : List Char → List (List Char)
  | [] => [[]]
  | c :: cs =>
    match splitLines cs with
    | [] => [[c]]
    | l :: ls => if c = '\n' then [] :: l :: ls else (c :: l) :: ls

/-- Rejoin lines with newline characters (inverse of `splitLines`). -/
def joinLines : List (List Char) → List Char
  | [] => []
  | [l] => l
  | l :: ls => l ++ '\n' :: joinLines ls

/-- Parse `\d+\.\d+\.\d+` greedily at the head of a character sequence,
returning the first two digit runs and the remainder after the third. -/
def parseVer (cs : List Char) : Option (List Char × List Char × List Char) :=
  let d1 := cs.takeWhile Char.isDigit
  if d1 = [] then none
  else
    match cs.drop d1.length with
    | '.' :: cs2 =>
      let d2 := cs2.takeWhile Char.isDigit
      if d2 = [] then none
      else
        match cs2.drop d2.length with
        | '.' :: cs3 =>
          let d3 := cs3.takeWhile Char.isDigit
          if d3 = [] then none else some (d1, d2, cs3.drop d3.length)
        | _ => none
    | _ => none

/-- Effect of `re.sub(r'^go (\d+\.\d+)\.\d+', r'go \1', ·, flags=re.MULTILINE)`
on one line: a line starting with `go ` followed by a three-component dotted
version keeps only the first two components; anything else is unchanged. -/
def fixLine (l : List Char) : List Char :=
  if l.take 3 = ['g', 'o', ' '] then
    match parseVer (l.drop 3) with
    | some (d1, d2, rest) => 'g' :: 'o' :: ' ' :: (d1 ++ '.' :: d2) ++ rest
    | none => l
  else l

/-- Whole-text version-pin substitution (line 194 of the script). -/
def goModFix (s : String) : String :=
  String.mk (joinLines ((splitLines s.data).map fixLine))

/-- Path of the version-pin file inside the clone. -/
def goModPath : String := AMD_DIR ++ "/go.mod"

/-- Patch step after a successful clone (lines 186-201): if `go.mod` exists,
read it, apply the substitution and write it back only when the text changed;
any I/O failure (`readFail`) is caught and leaves the filesystem unchanged. -/
def patchGoMod (readFail : Bool) (fs : FS) : FS :=
  if FS.pathExists fs goModPath then
    if readFail then fs
    else
      match FS.find fs goModPath with
      | some (Entry.file m content) =>
        let fixed := goModFix content
        if fixed ≠ content then FS.set fs goModPath (Entry.file m fixed) else fs
      | _ => fs
  else fs

/-- Extraction of archive members into a directory: each (name, entry) pair
becomes the entry at `dir/name` (`zip_ref.extractall(dir)`). -/
def extractAll (fs : FS) (dir : String) (entries : List (String × Entry)) : FS :=
  entries.foldl (fun acc ne => FS.set acc (dir ++ "/" ++ ne.1) ne.2) fs

/-- Result of a script fragment: normal return, `sys.exit(code)`, or an
uncaught exception. -/
inductive Exec (α : Type) where
  | ok (a : α)
  | exit (code : Nat)
  | raised
deriving DecidableEq, Repr

/-- Result of the Bento4 block, which can additionally `return` early from
`firstsetup` (line 52). -/
inductive StepRes (α : Type) where
  | cont (a : α)
  | retEarly (a : α)
  | exit (code : Nat)
  | raised
deriving DecidableEq, Repr

/-- External nondeterminism of one run: effective uid, package-manager
outcome, contents delivered by each download (`none` = the download or the
archive open raises), clone outcome and contents, per-path chmod and symlink
faults, and whether reading/writing `go.mod` raises. -/
structure World where
  euid : Nat
  aptOk : Bool
  bento4Archive : Option (List (String × Entry))
  wrapperArchive : Option (List (String × Entry))
  cloneOk : Bool
  cloneFiles : List (String × Entry)
  symlinkFails : String → Bool
  chmodFails : String → Bool
  goModReadFail : Bool

/-- Filesystem after a successful download-and-extract: the temporary
archive is written, the directory created, all members extracted, and the
temporary archive deleted. -/
def fetchResult (dir zipPath : String) (entries : List (String × Entry)) (fs : FS) : FS :=
  FS.erase
    (extractAll (FS.set (FS.set fs zipPath (Entry.file 0o644 "")) dir Entry.dir) dir entries)
    zipPath

/-- Unconditional download-and-extract of one ZIP dependency (the body of the
`if not dir.exists()` branches at lines 31-39 and 150-158); a failing
download or extraction raises. -/
def fetchArchive (dir zipPath : String) (archive : Option (List (String × Entry)))
    (fs : FS) : Exec FS :=
  match archive with
  | none => Exec.raised
  | some entries => Exec.ok (fetchResult dir zipPath entries fs)

/-- The archive-provisioner shape shared by the toolkit and wrapper steps:
skip entirely when the local directory exists, otherwise fetch. -/
def provisionArchive (dir zipPath : String)
    (archive : Option (List (String × Entry))) (fs : FS) : Exec FS :=
  if FS.pathExists fs dir then Exec.ok fs else fetchArchive dir zipPath archive fs

/-- Candidates of `BENTO4_DIR.glob("Bento4*")`, as absolute paths in
filesystem order. -/
def bento4Candidates (fs : FS) : List String :=
  (FS.children fs BENTO4_DIR).filterMap fun ne =>
    if strPre "Bento4".data ne.1.data then some (BENTO4_DIR ++ "/" ++ ne.1) else none

/-- Post-extraction part of the fresh Bento4 path (lines 44-114): locate the
extracted folder, bail out of `firstsetup` when its `bin` subdirectory is
missing, otherwise chmod every file, re-list the executables, prepend the bin
directory to PATH and run the fault-isolated symlink loop. -/
def bento4FreshLinks (w : World) (fs : FS) (path : String) : StepRes (FS × String) :=
  match bento4Candidates fs with
  | [] => StepRes.cont (fs, path)
  | c :: _ =>
    let binDir := c ++ "/bin"
    if FS.pathExists fs binDir = false then StepRes.retEarly (fs, path)
    else
      let files := FS.children fs binDir
      let fs₁ := chmodAll w.chmodFails fs binDir files
      let exes := executablesOf fs₁ binDir files
      let path₁ := binDir ++ ":" ++ path
      StepRes.cont ((linkLoop w.symlinkFails fs₁ binDir exes).1, path₁)

/-- Step 2 of `firstsetup` (lines 28-144): fresh download-and-link when the
toolkit directory is absent, otherwise PATH prepend plus the one-try repair
pass. -/
def bento4Step (w : World) (fs : FS) (path : String) : StepRes (FS × String) :=
  if FS.pathExists fs BENTO4_DIR = false then
    match fetchArchive BENTO4_DIR bento4Zip w.bento4Archive fs with
    | Exec.ok fs₁ => bento4FreshLinks w fs₁ path
    | Exec.exit n => StepRes.exit n
    | Exec.raised => StepRes.raised
  else
    match bento4Candidates fs with
    | [] => StepRes.cont (fs, path)
    | c :: _ =>
      let binDir := c ++ "/bin"
      let path₁ := binDir ++ ":" ++ path
      StepRes.cont ((repairPass w.symlinkFails fs binDir).1, path₁)

/-- Step 3 of `firstsetup` (lines 146-174): provision the wrapper archive and
chmod the `wrapper` binary (per-call try/except, non-fatal). -/
def wrapperStep (w : World) (fs : FS) : Exec FS :=
  if FS.pathExists fs WRAPPER_DIR = false then
    match fetchArchive WRAPPER_DIR wrapperZip w.wrapperArchive fs with
    | Exec.ok fs₁ =>
      let wb := WRAPPER_DIR ++ "/wrapper"
      if FS.pathExists fs₁ wb then
        if w.chmodFails wb then Exec.ok fs₁
        else
          match FS.find fs₁ wb with
          | some (Entry.file m c) => Exec.ok (FS.set fs₁ wb (Entry.file (chmodRepair m) c))
          | _ => Exec.ok fs₁
      else Exec.ok fs₁
    | Exec.exit n => Exec.exit n
    | Exec.raised => Exec.raised
  else Exec.ok fs

/-- Step 4 of `firstsetup` (lines 176-203): clone when absent (a failing
clone raises `CalledProcessError`, caught at line 207 as `sys.exit(1)`), then
patch `go.mod`. -/
def cloneStep (w : World) (fs : FS) : Exec FS :=
  if FS.pathExists fs AMD_DIR = false then
    if w.cloneOk = false then Exec.exit 1
    else
      let fs₁ := extractAll (FS.set fs AMD_DIR Entry.dir) AMD_DIR w.cloneFiles
      Exec.ok (patchGoMod w.goModReadFail fs₁)
  else Exec.ok fs

/-- The whole `firstsetup` function: root check, package install, toolkit,
wrapper, clone.  `retEarly` of the Bento4 block is a plain `return`, so it
yields a normal `ok`. -/
def firstsetup (w : World) (fs : FS) (path : String) : Exec (FS × String) :=
  if w.euid ≠ 0 then Exec.exit 1
  else if w.aptOk = false then Exec.exit 1
  else
    match bento4Step w fs path with
    | StepRes.retEarly a => Exec.ok a
    | StepRes.exit n => Exec.exit n
    | StepRes.raised => Exec.raised
    | StepRes.cont (fs₁, p₁) =>
      match wrapperStep w fs₁ with
      | Exec.ok fs₂ =>
        match cloneStep w fs₂ with
        | Exec.ok fs₃ => Exec.ok (fs₃, p₁)
        | Exec.exit n => Exec.exit n
        | Exec.raised => Exec.raised
      | Exec.exit n => Exec.exit n
      | Exec.raised => Exec.raised

/-- Parameters of `app.run(host="0.0.0.0", port=5000, debug=True)`. -/
structure Launch where
  host : String
  port : Nat
  debug : Bool
deriving DecidableEq, Repr

/-- The `start` function (lines 211-224): prepend the discovered Bento4 bin
directory (when a candidate exists) and then the wrapper directory to PATH,
and launch the service on the fixed host and port. -/
def start (fs : FS) (path : String) : String × Launch :=
  let path₁ :=
    match bento4Candidates fs with
    | [] => path
    | c :: _ => (c ++ "/bin") ++ ":" ++ path
  (WRAPPER_DIR ++ ":" ++ path₁, ⟨"0.0.0.0", 5000, true⟩)

/-- Module-level code before `start()` (lines 226-232): marker gating,
`firstsetup`, marker write. -/
def mainPre (w : World) (fs : FS) (path : String) : Exec (FS × String) :=
  if FS.pathExists fs markerFile then Exec.ok (fs, path)
  else
    match firstsetup w fs path with
    | Exec.ok (fs₁, p₁) => Exec.ok (FS.set fs₁ markerFile (Entry.file 0o644 markerText), p₁)
    | Exec.exit n => Exec.exit n
    | Exec.raised => Exec.raised

/-- Final observable state of a completed run. -/
structure RunOut where
  fs : FS
  path : String
  launch : Launch
deriving DecidableEq, Repr

/-- The whole module-level script (lines 226-234): marker-gated first setup
followed unconditionally by `start()`. -/
def mainRun (w : World) (fs : FS) (path : String) : Exec RunOut :=
  match mainPre w fs path with
  | Exec.ok (fs₁, p₁) =>
    let s := start fs₁ p₁
    Exec.ok ⟨fs₁, s.1, s.2⟩
  | Exec.exit n => Exec.exit n
  | Exec.raised => Exec.raised

/-- Fault oracle injecting no failures. -/
def noFails : String → Bool := fun _ => false

/-- World for a run whose toolkit archive extracts to a `Bento4-SDK` folder
that has no `bin` subdirectory (elevated, packages install fine). -/
def noBinWorld : World :=
  ⟨0, true, some [("Bento4-SDK", Entry.dir)], none, false, [],
   noFails, noFails, false⟩

/-- World of an unelevated operator with nothing downloadable. -/
def plainWorld : World := ⟨1000, true, none, none, false, [], noFails, noFails, false⟩

/-- Discovered toolkit bin directory used by the concrete scenarios. -/
def binDirSDK : String := BENTO4_DIR ++ "/Bento4-SDK/bin"

/-- Fault oracle: symlink creation at the `mp4decrypt` link path is denied. -/
def failDecrypt : String → Bool := fun d => d == USR_LOCAL_BIN ++ "/mp4decrypt"

/-- Toolkit bin directory holding two executables, no links present. -/
def twoExeFS : FS :=
  [(binDirSDK ++ "/mp4decrypt", Entry.file 0o755 ""),
   (binDirSDK ++ "/mp4info", Entry.file 0o755 "")]

/-- One executable whose system-wide link path is occupied by a dangling
symlink. -/
def danglingFS : FS :=
  [(binDirSDK ++ "/mp4decrypt", Entry.file 0o755 ""),
   (USR_LOCAL_BIN ++ "/mp4decrypt", Entry.symlink "/nowhere")]

/-- Existing toolkit with two executables, one link already present and one
missing. -/
def repairFS : FS :=
  [(binDirSDK ++ "/mp4decrypt", Entry.file 0o755 ""),
   (binDirSDK ++ "/mp4info", Entry.file 0o755 ""),
   (USR_LOCAL_BIN ++ "/mp4info", Entry.symlink (binDirSDK ++ "/mp4info"))]

/-- Filesystem of a bootstrapped installation: only the marker. -/
def markedFS : FS := [(markerFile, Entry.file 0o644 markerText)]

/-!  Theorems.  -/

theorem FS.find_erase (fs : FS) (p q : String) :
    FS.find (FS.erase fs p) q = if q = p then none else FS.find fs q := by
  induction fs with
  | nil =>
    simp only [FS.erase, FS.find]
    split <;> rfl
  | cons pe rest ih =>
    obtain ⟨r, e⟩ := pe
    by_cases hrp : r = p
    · subst hrp
      simp only [FS.erase, eq_self_iff_true, if_true]
      rw [ih]
      by_cases hq : q = r
      · simp [hq]
      · simp [hq, FS.find]
    · simp only [FS.erase, if_neg hrp, FS.find]
      by_cases hq : q = r
      · simp [hq, hrp]
      · simp [hq, ih, FS.find]

theorem FS.find_set_self (fs : FS) (p : String) (e : Entry) :
    FS.find (FS.set fs p e) p = some e := by
  simp [FS.set, FS.find]

theorem FS.find_set_ne (fs : FS) (p q : String) (e : Entry) (h : q ≠ p) :
    FS.find (FS.set fs p e) q = FS.find fs q := by
  simp [FS.set, FS.find, h, FS.find_erase]

/-- C1: the specification says the marker is created only after successful
completion of the full first-run sequence, and is not written in a run that
skips a step.  The code violates this: when the extracted toolkit has no
`bin` subdirectory, `firstsetup` prints an error and returns early — skipping
the permission/symlink pass, the wrapper provisioning and the repository
clone — and the module-level code still writes the marker (whose text even
announces completed setup).  This run ends with the marker present while the
wrapper directory and the clone are absent. -/
theorem C1_marker_written_despite_skipped_steps :
    (match mainRun noBinWorld [] "p0" with
     | Exec.ok out =>
         decide (FS.find out.fs markerFile = some (Entry.file 0o644 markerText)) &&
         (FS.find out.fs WRAPPER_DIR).isNone &&
         (FS.find out.fs AMD_DIR).isNone
     | _ => false) = true := by decide

/-- C2: the first-setup sequence is gated exactly by the marker: when the
marker resolves at process start nothing but `start()` runs and the
filesystem is handed through untouched, whatever the dependency directories
look like; when it is absent the run is `firstsetup` followed — upon its
normal return — by the marker write and `start()`. -/
theorem C2_marker_gating (w : World) (fs : FS) (p : String) :
    (FS.pathExists fs markerFile = true →
      mainRun w fs p = Exec.ok ⟨fs, (start fs p).1, (start fs p).2⟩) ∧
    (FS.pathExists fs markerFile = false →
      mainRun w fs p =
        match firstsetup w fs p with
        | Exec.ok (fs₁, p₁) =>
          Exec.ok ⟨FS.set fs₁ markerFile (Entry.file 0o644 markerText),
                   (start (FS.set fs₁ markerFile (Entry.file 0o644 markerText)) p₁).1,
                   (start (FS.set fs₁ markerFile (Entry.file 0o644 markerText)) p₁).2⟩
        | Exec.exit n => Exec.exit n
        | Exec.raised => Exec.raised) := by
  constructor
  · intro h
    simp [mainRun, mainPre, h]
  · intro h
    cases hfs : firstsetup w fs p with
    | ok a =>
      obtain ⟨fs₁, p₁⟩ := a
      simp [mainRun, mainPre, h, hfs]
    | exit n => simp [mainRun, mainPre, h, hfs]
    | raised => simp [mainRun, mainPre, h, hfs]

theorem C2_marker_gating_witness :
    mainRun plainWorld markedFS "p" =
      Exec.ok ⟨markedFS, (start markedFS "p").1, (start markedFS "p").2⟩ ∧
    mainRun plainWorld [] "p" =
      (match firstsetup plainWorld [] "p" with
       | Exec.ok (fs₁, p₁) =>
         Exec.ok ⟨FS.set fs₁ markerFile (Entry.file 0o644 markerText),
                  (start (FS.set fs₁ markerFile (Entry.file 0o644 markerText)) p₁).1,
                  (start (FS.set fs₁ markerFile (Entry.file 0o644 markerText)) p₁).2⟩
       | Exec.exit n => Exec.exit n
       | Exec.raised => Exec.raised) :=
  ⟨(C2_marker_gating plainWorld markedFS "p").1 (by decide),
   (C2_marker_gating plainWorld [] "p").2 (by decide)⟩

/-- C9: whenever the run reaches the launch — for any marker state — the
process search path is rewritten by `start`: the wrapper directory is
prepended in front of the discovered toolkit bin directory (when a candidate
is discovered; in front of the old value otherwise), and only then is the
service launched on host 0.0.0.0, port 5000. -/
theorem C9_path_then_launch (w : World) (fs : FS) (p : String) (fs₂ : FS) (p₂ : String)
    (h : mainPre w fs p = Exec.ok (fs₂, p₂)) :
    mainRun w fs p = Exec.ok ⟨fs₂, (start fs₂ p₂).1, (start fs₂ p₂).2⟩ ∧
    (start fs₂ p₂).2 = ⟨"0.0.0.0", 5000, true⟩ ∧
    (bento4Candidates fs₂ = [] → (start fs₂ p₂).1 = WRAPPER_DIR ++ ":" ++ p₂) ∧
    (∀ c cs, bento4Candidates fs₂ = c :: cs →
      (start fs₂ p₂).1 = WRAPPER_DIR ++ ":" ++ ((c ++ "/bin") ++ ":" ++ p₂)) := by
  refine ⟨by simp [mainRun, h], rfl, ?_, ?_⟩
  · intro hc
    simp [start, hc]
  · intro c cs hc
    simp [start, hc]

theorem C9_path_then_launch_witness :
    mainRun plainWorld markedFS "p" =
      Exec.ok ⟨markedFS, (start markedFS "p").1, (start markedFS "p").2⟩ ∧
    (start markedFS "p").2 = ⟨"0.0.0.0", 5000, true⟩ ∧
    (start markedFS "p").1 = WRAPPER_DIR ++ ":" ++ "p" :=
  ⟨(C9_path_then_launch plainWorld markedFS "p" markedFS "p" (by decide)).1,
   (C9_path_then_launch plainWorld markedFS "p" markedFS "p" (by decide)).2.1,
   (C9_path_then_launch plainWorld markedFS "p" markedFS "p" (by decide)).2.2.1 (by decide)⟩

/-- C10: with the marker present the program consults nothing of the outside
world — no privilege check, no download — and mutates no filesystem state:
the run returns the filesystem unchanged, only the PATH is recomputed by
`start`, and the result is identical for every world, in particular for an
unelevated one. -/
theorem C10_bootstrapped_start (w w' : World) (fs : FS) (p : String)
    (h : FS.pathExists fs markerFile = true) :
    mainRun w fs p = Exec.ok ⟨fs, (start fs p).1, (start fs p).2⟩ ∧
    mainRun w fs p = mainRun w' fs p := by
  have h1 : mainRun w fs p = Exec.ok ⟨fs, (start fs p).1, (start fs p).2⟩ := by
    simp [mainRun, mainPre, h]
  have h2 : mainRun w' fs p = Exec.ok ⟨fs, (start fs p).1, (start fs p).2⟩ := by
    simp [mainRun, mainPre, h]
  exact ⟨h1, h1.trans h2.symm⟩

theorem C10_bootstrapped_start_witness :
    mainRun plainWorld markedFS "p" =
      Exec.ok ⟨markedFS, (start markedFS "p").1, (start markedFS "p").2⟩ ∧
    mainRun plainWorld markedFS "p" = mainRun noBinWorld markedFS "p" :=
  C10_bootstrapped_start plainWorld noBinWorld markedFS "p" (by decide)

theorem linkLoop_all_processed (fails : String → Bool) (binDir : String) :
    ∀ (names : List String) (fs : FS),
      (linkLoop fails fs binDir names).2.length = names.length := by
  intro names
  induction names with
  | nil => intro fs; rfl
  | cons n ns ih =>
    intro fs
    simp [linkLoop, ih]

/-- C3 counterexample: the claim covers the repair pass too, but there the
try/except surrounds the whole creation loop.  With two links missing and
symlink creation denied for the first (`mp4decrypt`), the pass aborts: the
filesystem comes back unchanged (so `mp4info`'s link was never attempted)
and the completion flag is false — the remaining file was not processed. -/
theorem C3_cex_repair_abort :
    missingLinks twoExeFS binDirSDK =
      [(binDirSDK ++ "/mp4decrypt", USR_LOCAL_BIN ++ "/mp4decrypt"),
       (binDirSDK ++ "/mp4info", USR_LOCAL_BIN ++ "/mp4info")] ∧
    repairPass failDecrypt twoExeFS binDirSDK = (twoExeFS, false) ∧
    FS.find twoExeFS (USR_LOCAL_BIN ++ "/mp4info") = none := by decide

/-- C3 amended: fault isolation holds for the first-extraction pass — every
file of the list is processed and gets its own recorded outcome, a failing
symlink being recorded as `failed` for that file only — but in the repair
pass a single symlink failure aborts the loop and the remaining missing
links are left uncreated. -/
theorem C3_amended_isolation (fails : String → Bool) (fs : FS) (binDir name : String)
    (names : List String) (src dst : String) (rest : List (String × String)) :
    (linkLoop fails fs binDir names).2.length = names.length ∧
    (FS.pathExists fs (USR_LOCAL_BIN ++ "/" ++ name) = false →
      trySymlink fails fs (binDir ++ "/" ++ name) (USR_LOCAL_BIN ++ "/" ++ name) = none →
      linkStep fails fs binDir name = (fs, Outcome.failed)) ∧
    (trySymlink fails fs src dst = none →
      repairLoop fails fs ((src, dst) :: rest) = (fs, false)) := by
  refine ⟨linkLoop_all_processed fails binDir names fs, ?_, ?_⟩
  · intro h1 h2
    simp [linkStep, h1, h2]
  · intro h
    simp [repairLoop, h]

theorem C3_amended_isolation_witness :
    (linkLoop failDecrypt twoExeFS binDirSDK ["mp4decrypt", "mp4info"]).2.length =
      (["mp4decrypt", "mp4info"] : List String).length ∧
    linkStep failDecrypt twoExeFS binDirSDK "mp4decrypt" = (twoExeFS, Outcome.failed) ∧
    repairLoop failDecrypt twoExeFS
      [(binDirSDK ++ "/mp4decrypt", USR_LOCAL_BIN ++ "/mp4decrypt")] = (twoExeFS, false) :=
  ⟨(C3_amended_isolation failDecrypt twoExeFS binDirSDK "mp4decrypt"
      ["mp4decrypt", "mp4info"] (binDirSDK ++ "/mp4decrypt")
      (USR_LOCAL_BIN ++ "/mp4decrypt") []).1,
   (C3_amended_isolation failDecrypt twoExeFS binDirSDK "mp4decrypt"
      ["mp4decrypt", "mp4info"] (binDirSDK ++ "/mp4decrypt")
      (USR_LOCAL_BIN ++ "/mp4decrypt") []).2.1 (by decide) (by decide),
   (C3_amended_isolation failDecrypt twoExeFS binDirSDK "mp4decrypt"
      ["mp4decrypt", "mp4info"] (binDirSDK ++ "/mp4decrypt")
      (USR_LOCAL_BIN ++ "/mp4decrypt") []).2.2 (by decide)⟩

/-- C4 counterexample: a dangling symlink occupies the `mp4decrypt` link
path.  `link_path.exists()` follows symlinks and is false, so the code calls
`os.symlink`, which raises `FileExistsError`; the outcome is recorded as
`failed`, not as already-present (the claim demands already-present for any
occupying entry, dangling symlinks included). -/
theorem C4_cex_dangling :
    linkStep noFails danglingFS binDirSDK "mp4decrypt" = (danglingFS, Outcome.failed) ∧
    Outcome.failed ≠ Outcome.alreadyPresent := by decide

/-- C4 amended: the manager never overwrites an entry occupying a target
link path (the occupant survives and the outcome is never `created`), and it
records already-present exactly for occupants that `exists()` resolves — a
dangling symlink occupant is instead recorded as failed. -/
theorem C4_amended_no_clobber (fails : String → Bool) (fs : FS) (binDir name : String) :
    (FS.pathExists fs (USR_LOCAL_BIN ++ "/" ++ name) = true →
      linkStep fails fs binDir name = (fs, Outcome.alreadyPresent)) ∧
    (∀ e, FS.find fs (USR_LOCAL_BIN ++ "/" ++ name) = some e →
      FS.find (linkStep fails fs binDir name).1 (USR_LOCAL_BIN ++ "/" ++ name) = some e ∧
      (linkStep fails fs binDir name).2 ≠ Outcome.created) := by
  constructor
  · intro h
    simp [linkStep, h]
  · intro e he
    by_cases h : FS.pathExists fs (USR_LOCAL_BIN ++ "/" ++ name)
    · simp [linkStep, h, he]
    · simp [linkStep, h, trySymlink, he]

theorem C4_amended_no_clobber_witness :
    linkStep noFails repairFS binDirSDK "mp4info" = (repairFS, Outcome.alreadyPresent) ∧
    FS.find (linkStep noFails danglingFS binDirSDK "mp4decrypt").1
        (USR_LOCAL_BIN ++ "/" ++ "mp4decrypt") = some (Entry.symlink "/nowhere") ∧
    (linkStep noFails danglingFS binDirSDK "mp4decrypt").2 ≠ Outcome.created :=
  ⟨(C4_amended_no_clobber noFails repairFS binDirSDK "mp4info").1 (by decide),
   ((C4_amended_no_clobber noFails danglingFS binDirSDK "mp4decrypt").2
      (Entry.symlink "/nowhere") (by decide)).1,
   ((C4_amended_no_clobber noFails danglingFS binDirSDK "mp4decrypt").2
      (Entry.symlink "/nowhere") (by decide)).2⟩

/-- C5 counterexample: the repair ORs `0o755`, not just the execute bits.
Mode `0o711` already has all three execute bits set, yet the repair changes
it (to `0o755`), altering read bits — so re-applying is not a no-op and bits
other than the execute bits are changed. -/
theorem C5_cex_or755 : 0o711 &&& 0o111 = 0o111 ∧ chmodRepair 0o711 ≠ 0o711 := by decide

/-- C5 amended: the repair ORs the whole `0o755` mask (rwxr-xr-x) into the
mode: it is a no-op exactly when the mode already contains `0o755`, it is
idempotent, and bits outside `0o755` are never changed. -/
theorem C5_amended_or755 (m : Nat) :
    (m &&& 0o755 = 0o755 → chmodRepair m = m) ∧
    chmodRepair (chmodRepair m) = chmodRepair m ∧
    (∀ i, Nat.testBit 0o755 i = false → Nat.testBit (chmodRepair m) i = Nat.testBit m i) := by
  refine ⟨?_, ?_, ?_⟩
  · intro h
    apply Nat.eq_of_testBit_eq
    intro i
    rw [chmodRepair, Nat.testBit_lor]
    by_cases hb : Nat.testBit 0o755 i
    · have hcong := congrArg (fun x => Nat.testBit x i) h
      simp only [Nat.testBit_land, hb, Bool.and_true] at hcong
      simp [hcong, hb]
    · simp [hb]
  · show (m ||| 0o755) ||| 0o755 = m ||| 0o755
    rw [Nat.lor_assoc]
    norm_num
  · intro i hi
    rw [chmodRepair, Nat.testBit_lor, hi]
    simp

theorem C5_amended_or755_witness :
    chmodRepair 0o755 = 0o755 ∧
    chmodRepair (chmodRepair 0o644) = chmodRepair 0o644 ∧
    Nat.testBit (chmodRepair 0o644) 9 = Nat.testBit 0o644 9 :=
  ⟨(C5_amended_or755 0o755).1 (by decide),
   (C5_amended_or755 0o644).2.1,
   (C5_amended_or755 0o644).2.2 9 (by decide)⟩

theorem splitLines_ne_nil (cs : List Char) : splitLines cs ≠ [] := by
  cases cs with
  | nil => simp [splitLines]
  | cons c cs =>
    cases h : splitLines cs with
    | nil => simp [splitLines, h]
    | cons l ls =>
      simp only [splitLines, h]
      split <;> simp

theorem map_self_of_all {α : Type} (f : α → α) :
    ∀ (l : List α), (∀ a ∈ l, f a = a) → l.map f = l := by
  intro l
  induction l with
  | nil => intro _; rfl
  | cons a as ih =>
    intro h
    simp only [List.map_cons]
    rw [h a (by simp), ih (fun b hb => h b (by simp [hb]))]

theorem joinLines_cons_cons (c : Char) (l : List Char) (ls : List (List Char)) :
    joinLines ((c :: l) :: ls) = c :: joinLines (l :: ls) := by
  cases ls <;> simp [joinLines]

theorem joinLines_splitLines (cs : List Char) : joinLines (splitLines cs) = cs := by
  induction cs with
  | nil => rfl
  | cons c cs ih =>
    cases h : splitLines cs with
    | nil => exact absurd h (splitLines_ne_nil cs)
    | cons l ls =>
      rw [h] at ih
      by_cases hc : c = '\n'
      · subst hc
        simp [splitLines, h, joinLines, ih]
      · simp [splitLines, h, hc, joinLines_cons_cons, ih]

theorem fixLine_id_of_take (l : List Char) (h : l.take 3 ≠ ['g', 'o', ' ']) :
    fixLine l = l := by
  simp [fixLine, h]

/-- C6: the version-pin substitution rewrites the line `go 1.23.1` to
`go 1.23` (also in a multi-line file), leaves the two-component line
`go 1.23` unchanged, leaves any text with no line starting with `go `
byte-for-byte unchanged, and the patch step writes the file back only when
the substituted text differs: an unchanged substitution leaves the
filesystem identical. -/
theorem C6_version_pin (s : String) (fs : FS) (m : Nat) (content : String) :
    goModFix "go 1.23.1" = "go 1.23" ∧
    goModFix "go 1.23" = "go 1.23" ∧
    goModFix "module x\ngo 1.23.1\nrequire y\n" = "module x\ngo 1.23\nrequire y\n" ∧
    ((∀ l ∈ splitLines s.data, l.take 3 ≠ ['g', 'o', ' ']) → goModFix s = s) ∧
    (FS.find fs goModPath = some (Entry.file m content) → goModFix content = content →
      patchGoMod false fs = fs) := by
  refine ⟨by decide, by decide, by decide, ?_, ?_⟩
  · intro h
    have hall : ∀ l ∈ splitLines s.data, fixLine l = l :=
      fun l hl => fixLine_id_of_take l (h l hl)
    unfold goModFix
    rw [map_self_of_all fixLine (splitLines s.data) hall, joinLines_splitLines]
  · intro hf heq
    have hres : FS.resolve fs 64 goModPath = some (Entry.file m content) := by
      show FS.resolve fs (63 + 1) goModPath = some (Entry.file m content)
      simp [FS.resolve, hf]
    have hex : FS.pathExists fs goModPath = true := by
      simp [FS.pathExists, hres]
    simp [patchGoMod, hex, hf, heq]

theorem C6_version_pin_witness :
    goModFix "module x" = "module x" ∧
    patchGoMod false [(goModPath, Entry.file 0o644 "go 1.23\n")] =
      [(goModPath, Entry.file 0o644 "go 1.23\n")] :=
  ⟨(C6_version_pin "module x" [] 0 "").2.2.2.1 (by decide),
   (C6_version_pin "" [(goModPath, Entry.file 0o644 "go 1.23\n")] 0o644 "go 1.23\n").2.2.2.2
     (by decide) (by decide)⟩

theorem repairLoop_ok (fails : String → Bool) :
    ∀ (l : List (String × String)) (fs : FS),
      (l.map Prod.snd).Nodup →
      (∀ sd ∈ l, FS.find fs sd.2 = none ∧ fails sd.2 = false) →
      (repairLoop fails fs l).2 = true ∧
      (∀ sd ∈ l, FS.find (repairLoop fails fs l).1 sd.2 = some (Entry.symlink sd.1)) ∧
      (∀ p, p ∉ l.map Prod.snd → FS.find (repairLoop fails fs l).1 p = FS.find fs p) := by
  intro l
  induction l with
  | nil =>
    intro fs _ _
    exact ⟨rfl, by simp, fun p _ => rfl⟩
  | cons sd rest ih =>
    intro fs hnd hall
    obtain ⟨hfind, hfail⟩ := hall sd (List.mem_cons_self sd rest)
    have hstep : trySymlink fails fs sd.1 sd.2 =
        some (FS.set fs sd.2 (Entry.symlink sd.1)) := by
      simp [trySymlink, hfind, hfail]
    have hloop : repairLoop fails fs (sd :: rest) =
        repairLoop fails (FS.set fs sd.2 (Entry.symlink sd.1)) rest := by
      simp [repairLoop, hstep]
    have hnd' : (sd.2 :: rest.map Prod.snd).Nodup := by
      rw [List.map_cons] at hnd
      exact hnd
    have hcons := List.nodup_cons.mp hnd'
    have hall' : ∀ t ∈ rest,
        FS.find (FS.set fs sd.2 (Entry.symlink sd.1)) t.2 = none ∧ fails t.2 = false := by
      intro t ht
      obtain ⟨h1, h2⟩ := hall t (List.mem_cons_of_mem _ ht)
      have hne : t.2 ≠ sd.2 := by
        intro hcontra
        exact hcons.1 (hcontra ▸ List.mem_map_of_mem Prod.snd ht)
      exact ⟨(FS.find_set_ne fs sd.2 t.2 (Entry.symlink sd.1) hne).trans h1, h2⟩
    obtain ⟨hc, hm, hu⟩ := ih (FS.set fs sd.2 (Entry.symlink sd.1)) hcons.2 hall'
    refine ⟨by rw [hloop]; exact hc, ?_, ?_⟩
    · intro t ht
      rcases List.mem_cons.mp ht with h | h
      · subst h
        rw [hloop, hu t.2 hcons.1, FS.find_set_self]
      · rw [hloop]
        exact hm t h
    · intro p hp
      have hp1 : p ≠ sd.2 := fun hcontra => hp (by simp [hcontra])
      have hp2 : p ∉ rest.map Prod.snd := fun hcontra => hp (by simp [hcontra])
      rw [hloop, hu p hp2, FS.find_set_ne fs sd.2 p (Entry.symlink sd.1) hp1]

/-- C7: re-running the manager over an existing toolkit directory creates
exactly the computed missing links — one per execute-permitted file whose
link path does not exist — and touches nothing else: every missing link path
ends up holding a symlink to its source, and every other path (in particular
every already-existing link) is exactly as before.  Hypotheses: the missing
link paths are distinct and truly absent (not dangling), and no symlink call
faults. -/
theorem C7_repair_missing_only (fails : String → Bool) (fs : FS) (binDir : String)
    (hnd : ((missingLinks fs binDir).map Prod.snd).Nodup)
    (habs : ∀ sd ∈ missingLinks fs binDir, FS.find fs sd.2 = none ∧ fails sd.2 = false) :
    (repairPass fails fs binDir).2 = true ∧
    (∀ sd ∈ missingLinks fs binDir,
      FS.find (repairPass fails fs binDir).1 sd.2 = some (Entry.symlink sd.1)) ∧
    (∀ p, p ∉ (missingLinks fs binDir).map Prod.snd →
      FS.find (repairPass fails fs binDir).1 p = FS.find fs p) :=
  repairLoop_ok fails (missingLinks fs binDir) fs hnd habs

theorem C7_repair_missing_only_witness :
    (repairPass noFails repairFS binDirSDK).2 = true ∧
    FS.find (repairPass noFails repairFS binDirSDK).1 (USR_LOCAL_BIN ++ "/" ++ "mp4decrypt") =
      some (Entry.symlink (binDirSDK ++ "/" ++ "mp4decrypt")) ∧
    FS.find (repairPass noFails repairFS binDirSDK).1 (USR_LOCAL_BIN ++ "/" ++ "mp4info") =
      FS.find repairFS (USR_LOCAL_BIN ++ "/" ++ "mp4info") :=
  ⟨(C7_repair_missing_only noFails repairFS binDirSDK (by decide) (by decide)).1,
   (C7_repair_missing_only noFails repairFS binDirSDK (by decide) (by decide)).2.1
     (binDirSDK ++ "/" ++ "mp4decrypt", USR_LOCAL_BIN ++ "/" ++ "mp4decrypt") (by decide),
   (C7_repair_missing_only noFails repairFS binDirSDK (by decide) (by decide)).2.2
     (USR_LOCAL_BIN ++ "/" ++ "mp4info") (by decide)⟩

theorem extractAll_find_of_ne (dir : String) :
    ∀ (entries : List (String × Entry)) (fs : FS) (p : String),
      (∀ ne ∈ entries, dir ++ "/" ++ ne.1 ≠ p) →
      FS.find (extractAll fs dir entries) p = FS.find fs p := by
  intro entries
  induction entries with
  | nil => intro fs p _; rfl
  | cons e rest ih =>
    intro fs p h
    have hne : dir ++ "/" ++ e.1 ≠ p := h e (List.mem_cons_self e rest)
    have hstep : extractAll fs dir (e :: rest) =
        extractAll (FS.set fs (dir ++ "/" ++ e.1) e.2) dir rest := by
      simp [extractAll]
    rw [hstep, ih _ p (fun t ht => h t (List.mem_cons_of_mem _ ht)),
        FS.find_set_ne fs (dir ++ "/" ++ e.1) p e.2 (Ne.symm hne)]

theorem extractAll_find_mem (dir : String) :
    ∀ (entries : List (String × Entry)) (fs : FS),
      ((entries.map fun ne => dir ++ "/" ++ ne.1).Nodup) →
      ∀ ne ∈ entries,
        FS.find (extractAll fs dir entries) (dir ++ "/" ++ ne.1) = some ne.2 := by
  intro entries
  induction entries with
  | nil => intro fs _ ne h; cases h
  | cons e rest ih =>
    intro fs hnd ne hmem
    have hstep : extractAll fs dir (e :: rest) =
        extractAll (FS.set fs (dir ++ "/" ++ e.1) e.2) dir rest := by
      simp [extractAll]
    have hnd' : ((dir ++ "/" ++ e.1) :: rest.map fun ne => dir ++ "/" ++ ne.1).Nodup := by
      rw [List.map_cons] at hnd
      exact hnd
    have hcons := List.nodup_cons.mp hnd'
    rcases List.mem_cons.mp hmem with h | h
    · subst h
      have hrest : ∀ t ∈ rest, dir ++ "/" ++ t.1 ≠ dir ++ "/" ++ ne.1 := by
        intro t ht heq
        exact hcons.1 (heq ▸ List.mem_map_of_mem (fun x => dir ++ "/" ++ x.1) ht)
      rw [hstep, extractAll_find_of_ne dir rest _ _ hrest, FS.find_set_self]
    · rw [hstep]
      exact ih _ hcons.2 ne h

/-- C8: for an archive dependency, an existing local directory means the
provisioner does nothing at all — the wrapper step returns the state
unchanged, and the shared provisioner shape skips for any archive; when the
directory is absent the run produces exactly the fetched state, in which the
temporary archive path is deleted, the directory exists, and every archive
member sits inside it — so the temporary file never persists after a
successful provisioning. -/
theorem C8_provision_archive (w : World) (dir zipPath : String)
    (archive : Option (List (String × Entry))) (fs : FS)
    (entries : List (String × Entry)) :
    (FS.pathExists fs WRAPPER_DIR = true → wrapperStep w fs = Exec.ok fs) ∧
    (FS.pathExists fs dir = true → provisionArchive dir zipPath archive fs = Exec.ok fs) ∧
    (FS.pathExists fs dir = false →
      provisionArchive dir zipPath (some entries) fs =
        Exec.ok (fetchResult dir zipPath entries fs)) ∧
    FS.find (fetchResult dir zipPath entries fs) zipPath = none ∧
    (dir ≠ zipPath → (∀ ne ∈ entries, dir ++ "/" ++ ne.1 ≠ dir) →
      FS.find (fetchResult dir zipPath entries fs) dir = some Entry.dir) ∧
    (((entries.map fun ne => dir ++ "/" ++ ne.1).Nodup) →
      (∀ ne ∈ entries, dir ++ "/" ++ ne.1 ≠ zipPath) →
      ∀ ne ∈ entries,
        FS.find (fetchResult dir zipPath entries fs) (dir ++ "/" ++ ne.1) = some ne.2) := by
  refine ⟨?_, ?_, ?_, ?_, ?_, ?_⟩
  · intro h
    simp [wrapperStep, h]
  · intro h
    simp [provisionArchive, h]
  · intro h
    simp [provisionArchive, h, fetchArchive]
  · simp [fetchResult, FS.find_erase]
  · intro h1 h2
    rw [fetchResult, FS.find_erase]
    simp only [h1, if_false]
    rw [extractAll_find_of_ne dir entries _ dir h2, FS.find_set_self]
  · intro hnd hzip ne hmem
    rw [fetchResult, FS.find_erase]
    simp only [hzip ne hmem, if_false]
    exact extractAll_find_mem dir entries _ hnd ne hmem

theorem C8_provision_archive_witness :
    wrapperStep plainWorld [(WRAPPER_DIR, Entry.dir)] = Exec.ok [(WRAPPER_DIR, Entry.dir)] ∧
    provisionArchive "/d" "/z" (some [("a", Entry.file 0 "x")]) [("/d", Entry.dir)] =
      Exec.ok [("/d", Entry.dir)] ∧
    provisionArchive "/d" "/z" (some [("a", Entry.file 0 "x")]) [] =
      Exec.ok (fetchResult "/d" "/z" [("a", Entry.file 0 "x")] []) ∧
    FS.find (fetchResult "/d" "/z" [("a", Entry.file 0 "x")] []) "/z" = none ∧
    FS.find (fetchResult "/d" "/z" [("a", Entry.file 0 "x")] []) "/d" = some Entry.dir ∧
    FS.find (fetchResult "/d" "/z" [("a", Entry.file 0 "x")] []) ("/d" ++ "/" ++ "a") =
      some (Entry.file 0 "x") :=
  ⟨(C8_provision_archive plainWorld "/d" "/z" (some [("a", Entry.file 0 "x")])
      [(WRAPPER_DIR, Entry.dir)] [("a", Entry.file 0 "x")]).1 (by decide),
   (C8_provision_archive plainWorld "/d" "/z" (some [("a", Entry.file 0 "x")])
      [("/d", Entry.dir)] [("a", Entry.file 0 "x")]).2.1 (by decide),
   (C8_provision_archive plainWorld "/d" "/z" (some [("a", Entry.file 0 "x")]) []
      [("a", Entry.file 0 "x")]).2.2.1 (by decide),
   (C8_provision_archive plainWorld "/d" "/z" (some [("a", Entry.file 0 "x")]) []
      [("a", Entry.file 0 "x")]).2.2.2.1,
   (C8_provision_archive plainWorld "/d" "/z" (some [("a", Entry.file 0 "x")]) []
      [("a", Entry.file 0 "x")]).2.2.2.2.1 (by decide) (by decide),
   (C8_provision_archive plainWorld "/d" "/z" (some [("a", Entry.file 0 "x")]) []
      [("a", Entry.file 0 "x")]).2.2.2.2.2 (by decide) (by decide)
     ("a", Entry.file 0 "x") (by decide)⟩
